import Mathlib

/-!
Verification of the streaming interview-practice session engine
(`src/components/InterviewPractice.tsx`): media codec utilities, the
inbound message router with its playback scheduler and transcript
aggregator, and the session lifecycle (`startSession` / `stopSession`).

Each definition is a shallow embedding of the corresponding TypeScript
function; JS numbers on the audio timeline are modelled as rationals,
byte values as naturals below 256, and fallible operations (runtime
TypeError / InvalidCharacterError / RangeError) as `Except`.
-/

namespace InterviewPractice

/-! ### Base64 (browser `atob` / `btoa`), used by `decode` / `encode` -/

/-- The standard base64 alphabet, as used by `btoa`/`atob`. -/
def b64Alphabet : List Char :=
  [ 'A', 'B', 'C', 'D', 'E', 'F', 'G', 'H', 'I', 'J', 'K', 'L', 'M',
    'N', 'O', 'P', 'Q', 'R', 'S', 'T', 'U', 'V', 'W', 'X', 'Y', 'Z',
    'a', 'b', 'c', 'd', 'e', 'f', 'g', 'h', 'i', 'j', 'k', 'l', 'm',
    'n', 'o', 'p', 'q', 'r', 's', 't', 'u', 'v', 'w', 'x', 'y', 'z',
    '0', '1', '2', '3', '4', '5', '6', '7', '8', '9', '+', '/' ]

/-- Index of a character in the base64 alphabet (`none` for foreign chars). -/
def b64Index (c : Char) : Option Nat :=
  b64Alphabet.indexOf? c

/-- The base64 character for a 6-bit value. -/
def b64Char (i : Nat) : Char :=
  b64Alphabet.getD i 'A'

/-- One full 4-character base64 group without padding, decoded to 3 bytes. -/
def atobGroup (a b c d : Char) : Option (List Nat) := do
  let x ← b64Index a
  let y ← b64Index b
  let z ← b64Index c
  let w ← b64Index d
  some [x * 4 + y / 16, y % 16 * 16 + z / 4, z % 4 * 64 + w]

/-- The final 4-character base64 group, allowing `=` padding. -/
def atobFinal (a b c d : Char) : Option (List Nat) :=
  if c = '=' ∧ d = '=' then do
    let x ← b64Index a
    let y ← b64Index b
    some [x * 4 + y / 16]
  else if d = '=' then do
    let x ← b64Index a
    let y ← b64Index b
    let z ← b64Index c
    some [x * 4 + y / 16, y % 16 * 16 + z / 4]
  else
    atobGroup a b c d

/-- `atob` on a character list: 4-character groups, padding only at the end.
Models the browser primitive on canonically padded input (all inputs the
program produces via `btoa`); other inputs yield `none` (a thrown
InvalidCharacterError). -/
def atobChars : List Char → Option (List Nat)
  | [] => some []
  | a :: b :: c :: d :: rest =>
    match rest with
    | [] => atobFinal a b c d
    | _ => do
      let g ← atobGroup a b c d
      let r ← atobChars rest
      some (g ++ r)
  | _ => none

/-- Browser `atob`: base64 text to bytes, `none` when the input is rejected. -/
def atob (s : String) : Option (List Nat) :=
  atobChars s.toList

/-- `btoa` on one group of at most 3 bytes. -/
def btoaGroup : List Nat → List Char
  | [x] => [b64Char (x / 4), b64Char (x % 4 * 16), '=', '=']
  | [x, y] => [b64Char (x / 4), b64Char (x % 4 * 16 + y / 16), b64Char (y % 16 * 4), '=']
  | x :: y :: z :: _ =>
    [b64Char (x / 4), b64Char (x % 4 * 16 + y / 16), b64Char (y % 16 * 4 + z / 64), b64Char (z % 64)]
  | [] => []

/-- `btoa` chunking: 3 bytes per 4 output characters. -/
def btoaChunks : List Nat → List Char
  | [] => []
  | [x] => btoaGroup [x]
  | [x, y] => btoaGroup [x, y]
  | x :: y :: z :: rest => btoaGroup [x, y, z] ++ btoaChunks rest

/-- Browser `btoa`: bytes (each < 256) to base64 text. -/
def btoa (bytes : List Nat) : String :=
  ⟨btoaChunks bytes⟩

/-- Source `decode(base64)`: `atob` plus packing the code units into a
`Uint8Array`; bytes are modelled as naturals below 256. -/
def decode (base64 : String) : Option (List Nat) :=
  atob base64

/-- Source `encode(bytes)`: builds the byte-per-code-unit string and applies
`btoa`. -/
def encode (bytes : List Nat) : String :=
  btoa bytes

/-! #### Round-trip of the text-safe codec -/

theorem b64Index_b64Char : ∀ i : Fin 64, b64Index (b64Char i.val) = some i.val := by
  decide

theorem b64Char_ne_eq : ∀ i : Fin 64, b64Char i.val ≠ '=' := by
  decide

theorem b64Index_b64Char_of_lt {i : Nat} (h : i < 64) :
    b64Index (b64Char i) = some i :=
  b64Index_b64Char ⟨i, h⟩

theorem b64Char_ne_eq_of_lt {i : Nat} (h : i < 64) : b64Char i ≠ '=' :=
  b64Char_ne_eq ⟨i, h⟩

theorem btoaChunks_ne_nil {bs : List Nat} (h : bs ≠ []) : btoaChunks bs ≠ [] := by
  match bs with
  | [] => exact absurd rfl h
  | [x] => simp [btoaChunks, btoaGroup]
  | [x, y] => simp [btoaChunks, btoaGroup]
  | x :: y :: z :: rest => simp [btoaChunks, btoaGroup]

theorem atobFinal_pad2 {i j : Nat} (hi : i < 64) (hj : j < 64) :
    atobFinal (b64Char i) (b64Char j) '=' '=' = some [i * 4 + j / 16] := by
  rw [atobFinal, if_pos ⟨rfl, rfl⟩]
  simp [b64Index_b64Char_of_lt hi, b64Index_b64Char_of_lt hj]

theorem atobFinal_pad1 {i j k : Nat} (hi : i < 64) (hj : j < 64) (hk : k < 64) :
    atobFinal (b64Char i) (b64Char j) (b64Char k) '='
      = some [i * 4 + j / 16, j % 16 * 16 + k / 4] := by
  rw [atobFinal, if_neg (fun hc => b64Char_ne_eq_of_lt hk hc.1), if_pos rfl]
  simp [b64Index_b64Char_of_lt hi, b64Index_b64Char_of_lt hj, b64Index_b64Char_of_lt hk]

theorem atobGroup_b64Char {i j k l : Nat}
    (hi : i < 64) (hj : j < 64) (hk : k < 64) (hl : l < 64) :
    atobGroup (b64Char i) (b64Char j) (b64Char k) (b64Char l)
      = some [i * 4 + j / 16, j % 16 * 16 + k / 4, k % 4 * 64 + l] := by
  simp [atobGroup, b64Index_b64Char_of_lt hi, b64Index_b64Char_of_lt hj,
    b64Index_b64Char_of_lt hk, b64Index_b64Char_of_lt hl]

theorem atobFinal_nopad {i j k l : Nat}
    (hi : i < 64) (hj : j < 64) (hk : k < 64) (hl : l < 64) :
    atobFinal (b64Char i) (b64Char j) (b64Char k) (b64Char l)
      = some [i * 4 + j / 16, j % 16 * 16 + k / 4, k % 4 * 64 + l] := by
  rw [atobFinal, if_neg (fun hc => b64Char_ne_eq_of_lt hk hc.1),
    if_neg (b64Char_ne_eq_of_lt hl)]
  exact atobGroup_b64Char hi hj hk hl

/-- Round trip: decoding an encoded byte list recovers the bytes. -/
theorem atob_btoa (bs : List Nat) (h : ∀ b ∈ bs, b < 256) :
    atob (btoa bs) = some bs := by
  show atobChars (btoaChunks bs) = some bs
  match bs with
  | [] => rfl
  | [x] =>
    have hx : x < 256 := h x (by simp)
    have h1 : x / 4 < 64 := by omega
    have h2 : x % 4 * 16 < 64 := by omega
    show atobFinal (b64Char (x / 4)) (b64Char (x % 4 * 16)) '=' '=' = some [x]
    rw [atobFinal_pad2 h1 h2]
    simp only [Option.some.injEq, List.cons.injEq, and_true]
    omega
  | [x, y] =>
    have hx : x < 256 := h x (by simp)
    have hy : y < 256 := h y (by simp)
    have h1 : x / 4 < 64 := by omega
    have h2 : x % 4 * 16 + y / 16 < 64 := by omega
    have h3 : y % 16 * 4 < 64 := by omega
    show atobFinal (b64Char (x / 4)) (b64Char (x % 4 * 16 + y / 16))
      (b64Char (y % 16 * 4)) '=' = some [x, y]
    rw [atobFinal_pad1 h1 h2 h3]
    simp only [Option.some.injEq, List.cons.injEq, and_true]
    omega
  | [x, y, z] =>
    have hx : x < 256 := h x (by simp)
    have hy : y < 256 := h y (by simp)
    have hz : z < 256 := h z (by simp)
    have h1 : x / 4 < 64 := by omega
    have h2 : x % 4 * 16 + y / 16 < 64 := by omega
    have h3 : y % 16 * 4 + z / 64 < 64 := by omega
    have h4 : z % 64 < 64 := by omega
    show atobFinal (b64Char (x / 4)) (b64Char (x % 4 * 16 + y / 16))
      (b64Char (y % 16 * 4 + z / 64)) (b64Char (z % 64)) = some [x, y, z]
    rw [atobFinal_nopad h1 h2 h3 h4]
    simp only [Option.some.injEq, List.cons.injEq, and_true]
    omega
  | x :: y :: z :: r :: rs =>
    have hx : x < 256 := h x (by simp)
    have hy : y < 256 := h y (by simp)
    have hz : z < 256 := h z (by simp)
    have h1 : x / 4 < 64 := by omega
    have h2 : x % 4 * 16 + y / 16 < 64 := by omega
    have h3 : y % 16 * 4 + z / 64 < 64 := by omega
    have h4 : z % 64 < 64 := by omega
    have ih : atobChars (btoaChunks (r :: rs)) = some (r :: rs) :=
      atob_btoa (r :: rs) (fun b hb => h b (by simp at hb ⊢; tauto))
    obtain ⟨c, cs, hbc⟩ : ∃ c cs, btoaChunks (r :: rs) = c :: cs := by
      cases hb : btoaChunks (r :: rs) with
      | nil => exact absurd hb (btoaChunks_ne_nil (by simp))
      | cons c cs => exact ⟨c, cs, rfl⟩
    rw [hbc] at ih
    show atobChars (btoaGroup [x, y, z] ++ btoaChunks (r :: rs)) = _
    rw [hbc]
    show atobChars (b64Char (x / 4) :: b64Char (x % 4 * 16 + y / 16) ::
      b64Char (y % 16 * 4 + z / 64) :: b64Char (z % 64) :: (c :: cs)) = _
    rw [atobChars]
    simp only [atobGroup_b64Char h1 h2 h3 h4, ih, Option.bind_eq_bind,
      Option.some_bind, Option.some.injEq]
    · simp only [List.cons_append, List.nil_append, List.cons.injEq, and_true]
      omega
    · simp

/-! ### Audio capture pipeline (`onaudioprocess`, lines 121-131)

Float samples are modelled as rationals.  The assignment
`int16[i] = inputData[i] * 32768` stores into an `Int16Array`, i.e. applies
the JS ToInt16 conversion: truncate toward zero, then wrap modulo 2^16 —
no clamping. -/

/-- Truncation toward zero of a rational, as the ToInt16 conversion of an
`Int16Array` store does: `Int.tdiv` of the numerator by the (positive)
denominator rounds toward zero, so e.g. -1/2 truncates to 0, not to the
floor -1. -/
def ratTrunc (q : ℚ) : ℤ :=
  Int.tdiv q.num (q.den : ℤ)

/-- The unsigned 16-bit pattern stored by `int16[i] = inputData[i] * 32768`. -/
def sampleToUint16 (s : ℚ) : ℕ :=
  (ratTrunc (s * 32768) % 65536).toNat

/-- The signed value of that stored 16-bit pattern (what an `Int16Array`
read yields). -/
def sampleToInt16 (s : ℚ) : ℤ :=
  if sampleToUint16 s < 32768 then (sampleToUint16 s : ℤ)
  else (sampleToUint16 s : ℤ) - 65536

/-- `new Uint8Array(int16.buffer)`: the little-endian byte serialization of
the 16-bit patterns. -/
def int16Bytes (us : List ℕ) : List ℕ :=
  us.flatMap fun u => [u % 256, u / 256]

/-- A media chunk handed to `sendRealtimeInput` (`{ data, mimeType }`). -/
structure MediaBlob where
  data : String
  mimeType : String
  deriving DecidableEq, Repr

/-- Source `onaudioprocess` body: convert the captured float block to
int16, pack to bytes, base64-encode, and tag the blob. -/
def onaudioprocess (inputData : List ℚ) : MediaBlob :=
  { data := encode (int16Bytes (inputData.map sampleToUint16))
    mimeType := "audio/pcm;rate=16000" }

theorem sampleToUint16_lt (s : ℚ) : sampleToUint16 s < 65536 := by
  rw [sampleToUint16]
  omega

theorem int16Bytes_lt (us : List ℕ) (h : ∀ u ∈ us, u < 65536) :
    ∀ b ∈ int16Bytes us, b < 256 := by
  intro b hb
  rw [int16Bytes] at hb
  simp only [List.mem_flatMap] at hb
  obtain ⟨u, hu, hmem⟩ := hb
  have := h u hu
  simp only [List.mem_cons, List.not_mem_nil, or_false] at hmem
  rcases hmem with h1 | h2
  · omega
  · omega

/-! ### Inbound events and the router (`onmessage`, lines 155-185) -/

/-- A transcription fragment (`{text}`). -/
structure Transcription where
  text : String
  deriving DecidableEq, Repr

/-- `inlineData` of a model-turn part; its `data` field is optional. -/
structure InlineData where
  data : Option String
  deriving DecidableEq, Repr

/-- One element of `modelTurn.parts`. -/
structure TurnPart where
  inlineData : Option InlineData
  deriving DecidableEq, Repr

/-- `serverContent.modelTurn`; `parts` is optional in the wire type, and
the source indexes it without an optional chain (`parts[0]`). -/
structure ModelTurn where
  parts : Option (List TurnPart)
  deriving DecidableEq, Repr

/-- The `serverContent` payload of an inbound event. -/
structure ServerContent where
  outputTranscription : Option Transcription
  inputTranscription : Option Transcription
  turnComplete : Option Bool
  modelTurn : Option ModelTurn
  interrupted : Option Bool
  deriving DecidableEq, Repr

/-- An inbound channel event (`LiveServerMessage`). -/
structure LiveServerMessage where
  serverContent : Option ServerContent
  deriving DecidableEq, Repr

/-- Speaker of a transcript entry. -/
inductive Role where
  | user
  | assistant
  deriving DecidableEq, Repr

/-- A finalized transcript entry (`PracticeTranscription`). -/
structure TranscriptEntry where
  role : Role
  text : String
  timestamp : ℕ
  deriving DecidableEq, Repr

/-- An audio buffer source scheduled against the output clock
(`source.start(t)` with the buffer's duration); never cancelled by the
source code. -/
structure ScheduledSource where
  startTime : ℚ
  duration : ℚ
  deriving DecidableEq, Repr

/-- The mutable state touched by the inbound router: the two pending text
buffers, the transcript list, the playback cursor (`nextStartTimeRef`) and
the already-scheduled sources. -/
structure RouterState where
  currentInText : String
  currentOutText : String
  transcriptions : List TranscriptEntry
  nextStartTime : ℚ
  scheduled : List ScheduledSource
  deriving DecidableEq, Repr

/-- Ambient readings taken while one event is processed:
`audioCtxOut.currentTime` and `Date.now()`. -/
structure MsgCtx where
  outNow : ℚ
  dateNow : ℕ
  deriving DecidableEq, Repr

/-- Runtime exceptions the handler can raise. -/
inductive RouterError where
  /-- TypeError from `modelTurn?.parts[0]` when `parts` is absent. -/
  | partsUndefined
  /-- InvalidCharacterError from `atob` on a malformed payload. -/
  | invalidBase64
  /-- RangeError from `new Int16Array(buffer)` on an odd byte count. -/
  | oddPayload
  deriving DecidableEq, Repr

/-- Lines 157-161: the transcription accumulation.  Note the `else if`:
when an event carries both fields only the output fragment is kept. -/
def transcriptionStep (m : LiveServerMessage) (st : RouterState) : RouterState :=
  match m.serverContent with
  | none => st
  | some sc =>
    match sc.outputTranscription with
    | some t => { st with currentOutText := st.currentOutText ++ t.text }
    | none =>
      match sc.inputTranscription with
      | some t => { st with currentInText := st.currentInText ++ t.text }
      | none => st

/-- Lines 163-168: flush the pending buffers into transcript entries on a
truthy `turnComplete`, user entry first, then clear both buffers. -/
def turnCompleteStep (m : LiveServerMessage) (ctx : MsgCtx) (st : RouterState) : RouterState :=
  if (m.serverContent.bind ServerContent.turnComplete).getD false then
    let st1 :=
      if st.currentInText ≠ "" then
        { st with transcriptions :=
            st.transcriptions ++ [⟨Role.user, st.currentInText, ctx.dateNow⟩] }
      else st
    let st2 :=
      if st1.currentOutText ≠ "" then
        { st1 with transcriptions :=
            st1.transcriptions ++ [⟨Role.assistant, st1.currentOutText, ctx.dateNow⟩] }
      else st1
    { st2 with currentInText := "", currentOutText := "" }
  else st

/-- Line 171: `message.serverContent?.modelTurn?.parts[0]?.inlineData?.data`.
`parts` has no optional chain before its index, so a present `modelTurn`
with absent `parts` raises a TypeError. -/
def extractAudioData (m : LiveServerMessage) : Except RouterError (Option String) :=
  match m.serverContent with
  | none => Except.ok none
  | some sc =>
    match sc.modelTurn with
    | none => Except.ok none
    | some mt =>
      match mt.parts with
      | none => Except.error RouterError.partsUndefined
      | some ps => Except.ok (ps.head?.bind fun p => p.inlineData.bind InlineData.data)

/-- Duration of a decoded audio buffer (`decodeAudioData`, lines 29-46):
`frameCount / sampleRate` with one channel at 24 kHz. -/
def bufferDuration (bytes : List ℕ) : ℚ :=
  ((bytes.length / 2 : ℕ) : ℚ) / 24000

/-- Lines 171-180: on a truthy inline audio payload, clamp the cursor to
`max(cursor, now)`, schedule the decoded buffer there, and advance the
cursor by its duration. -/
def playbackStep (m : LiveServerMessage) (ctx : MsgCtx) (st : RouterState) :
    Except RouterError RouterState := do
  let audioData ← extractAudioData m
  match audioData with
  | none => Except.ok st
  | some s =>
    if s = "" then Except.ok st
    else
      let cursor := max st.nextStartTime ctx.outNow
      match atob s with
      | none => Except.error RouterError.invalidBase64
      | some bytes =>
        if bytes.length % 2 = 1 then Except.error RouterError.oddPayload
        else
          Except.ok { st with
            nextStartTime := cursor + bufferDuration bytes
            scheduled := st.scheduled ++ [⟨cursor, bufferDuration bytes⟩] }

/-- Lines 182-184: a truthy `interrupted` resets the cursor to `0`. -/
def interruptionStep (m : LiveServerMessage) (st : RouterState) : RouterState :=
  if (m.serverContent.bind ServerContent.interrupted).getD false then
    { st with nextStartTime := 0 }
  else st

/-- The full `onmessage` handler, in source order: transcription, turn
completion, audio playback, interruption. -/
def onmessage (m : LiveServerMessage) (ctx : MsgCtx) (st : RouterState) :
    Except RouterError RouterState := do
  let st1 := transcriptionStep m st
  let st2 := turnCompleteStep m ctx st1
  let st3 ← playbackStep m ctx st2
  Except.ok (interruptionStep m st3)

/-- Sequential processing of a list of inbound events, each with the clock
readings at its arrival. -/
def processMessages (msgs : List (LiveServerMessage × MsgCtx)) (st : RouterState) :
    Except RouterError RouterState :=
  match msgs with
  | [] => Except.ok st
  | (m, ctx) :: rest => do
    let st1 ← onmessage m ctx st
    processMessages rest st1

/-! #### Concrete event shapes used below -/

/-- A `ServerContent` with every optional field absent. -/
def emptyContent : ServerContent :=
  ⟨none, none, none, none, none⟩

/-- An event carrying only a truthy `interrupted` flag. -/
def interruptMsg : LiveServerMessage :=
  ⟨some { emptyContent with interrupted := some true }⟩

/-- An event carrying only a truthy `turnComplete` flag. -/
def turnCompleteMsg : LiveServerMessage :=
  ⟨some { emptyContent with turnComplete := some true }⟩

/-- An event carrying only an inline audio payload. -/
def audioMsg (s : String) : LiveServerMessage :=
  ⟨some { emptyContent with modelTurn := some ⟨some [⟨some ⟨some s⟩⟩]⟩ }⟩

/-- An event carrying a single transcription fragment for one speaker. -/
def fragMsg (r : Role) (t : String) : LiveServerMessage :=
  match r with
  | Role.user => ⟨some { emptyContent with inputTranscription := some ⟨t⟩ }⟩
  | Role.assistant => ⟨some { emptyContent with outputTranscription := some ⟨t⟩ }⟩

/-- The all-empty router state at session start (`nextStartTimeRef` starts
at 0). -/
def initialRouterState : RouterState :=
  ⟨"", "", [], 0, []⟩

/-! ### Session lifecycle (`stopSession` lines 71-80, `startSession` lines 82-99) -/

/-- A device media track; `stop()` on an already-stopped track is a no-op. -/
structure MediaTrack where
  stopped : Bool
  deriving DecidableEq, Repr

/-- An audio processing context; `close()` on an already-closed context
returns a rejected promise (InvalidStateError), per the Web Audio API. -/
structure AudioCtx where
  closed : Bool
  deriving DecidableEq, Repr

/-- The component's refs and state flags that the lifecycle code touches. -/
structure SessionRefs where
  isActive : Bool
  isConnecting : Bool
  /-- `sessionRef`: the channel handle (an id once connected). -/
  session : Option ℕ
  /-- `streamRef`: the device stream's tracks. -/
  stream : Option (List MediaTrack)
  /-- `frameIntervalRef`: the stored timer id (never cleared back to null). -/
  frameInterval : Option ℕ
  /-- Whether the periodic video timer is actually registered and firing. -/
  timerAlive : Bool
  /-- `audioContextInRef`. -/
  ctxIn : Option AudioCtx
  /-- `audioContextOutRef`. -/
  ctxOut : Option AudioCtx
  deriving DecidableEq, Repr

/-- A resource-release step performed by `stopSession`. -/
inductive ReleaseAction where
  | closeChannel
  | stopTracks
  | clearFrameTimer
  | closeCtxIn
  | closeCtxOut
  deriving DecidableEq, Repr

/-- Outcome of one release step (`rejected` models a rejected promise). -/
inductive ReleaseResult where
  | ok
  | rejected
  deriving DecidableEq, Repr

/-- `AudioContext.close()`: closing a closed context rejects. -/
def closeCtx (c : AudioCtx) : AudioCtx × ReleaseResult :=
  if c.closed then (c, ReleaseResult.rejected) else (⟨true⟩, ReleaseResult.ok)

/-- Source `stopSession`: clear the flags, close the channel / stop tracks /
clear the timer / close both contexts when the respective ref is set, then
null out only `sessionRef`.  Returns the new refs and the trace of release
steps with their outcomes. -/
def stopSession (s : SessionRefs) : SessionRefs × List (ReleaseAction × ReleaseResult) :=
  let acts1 : List (ReleaseAction × ReleaseResult) :=
    match s.session with
    | some _ => [(ReleaseAction.closeChannel, ReleaseResult.ok)]
    | none => []
  let streamActs : Option (List MediaTrack) × List (ReleaseAction × ReleaseResult) :=
    match s.stream with
    | some ts => (some (ts.map fun _ => ⟨true⟩), [(ReleaseAction.stopTracks, ReleaseResult.ok)])
    | none => (none, [])
  let acts3 : List (ReleaseAction × ReleaseResult) :=
    match s.frameInterval with
    | some _ => [(ReleaseAction.clearFrameTimer, ReleaseResult.ok)]
    | none => []
  let ctxInActs : Option AudioCtx × List (ReleaseAction × ReleaseResult) :=
    match s.ctxIn with
    | some c => (some (closeCtx c).1, [(ReleaseAction.closeCtxIn, (closeCtx c).2)])
    | none => (none, [])
  let ctxOutActs : Option AudioCtx × List (ReleaseAction × ReleaseResult) :=
    match s.ctxOut with
    | some c => (some (closeCtx c).1, [(ReleaseAction.closeCtxOut, (closeCtx c).2)])
    | none => (none, [])
  ({ isActive := false
     isConnecting := false
     session := none
     stream := streamActs.1
     frameInterval := s.frameInterval
     timerAlive := if s.frameInterval.isSome then false else s.timerAlive
     ctxIn := ctxInActs.1
     ctxOut := ctxOutActs.1 },
   acts1 ++ streamActs.2 ++ acts3 ++ ctxInActs.2 ++ ctxOutActs.2)

/-- Externally visible effects of a `startSession` run. -/
structure StartEffects where
  deviceRequests : ℕ
  channelsConnected : ℕ
  deriving DecidableEq, Repr

/-- Source `startSession` through the connect await on the granted path
(or the catch block on denial).  There is no state guard at entry: the
function always sets `isConnecting`, requests the devices, and on grant
creates a fresh stream, both contexts, and a new channel, overwriting
whatever the refs held. -/
def startSessionRun (s : SessionRefs) (eff : StartEffects) (grant : Bool) :
    SessionRefs × StartEffects :=
  let s1 := { s with isConnecting := true }
  let eff1 := { eff with deviceRequests := eff.deviceRequests + 1 }
  if grant then
    let s2 := { s1 with
      stream := some [⟨false⟩, ⟨false⟩]
      ctxIn := some ⟨false⟩
      ctxOut := some ⟨false⟩ }
    let eff2 := { eff1 with channelsConnected := eff1.channelsConnected + 1 }
    ({ s2 with session := some eff2.channelsConnected }, eff2)
  else
    ((stopSession s1).1, eff1)

/-- Line 211: the start control is rendered only when the session is
neither active nor connecting (`!isActive && !isConnecting`). -/
def startButtonVisible (isActive isConnecting : Bool) : Bool :=
  !isActive && !isConnecting

/-! #### Asynchronous completions after teardown (lines 121-131, 136-153, 193) -/

/-- State of the event loop around an outstanding `ai.live.connect()`
promise. -/
structure AsyncState where
  refs : SessionRefs
  /-- `some ch` once the connect promise has resolved with channel `ch`. -/
  promiseResolved : Option ℕ
  /-- Sends registered via `sessionPromise.then` before resolution. -/
  pendingSends : List MediaBlob
  /-- Chunks actually submitted to the channel. -/
  sentOnChannel : List MediaBlob
  deriving DecidableEq, Repr

/-- Discrete reactions on the event loop. -/
inductive AsyncEvent where
  /-- The user (or an error path) invokes `stopSession`. -/
  | stopCall
  /-- `sessionRef.current = await sessionPromise` (line 193) runs: the
  handle is assigned unconditionally and queued `.then` sends fire. -/
  | connectResolves (ch : ℕ)
  /-- The channel's `onopen` callback (lines 114-154): sets the active
  flag and registers the video frame timer. -/
  | openFires (timerId : ℕ)
  /-- One tick of the 1 Hz video timer (lines 136-153): if the timer is
  alive, the captured frame is sent via `sessionPromise.then`, with no
  check of the session handle. -/
  | videoTick (frame : MediaBlob)
  deriving DecidableEq, Repr

/-- One event-loop step. -/
def stepAsync (st : AsyncState) : AsyncEvent → AsyncState
  | AsyncEvent.stopCall =>
    { st with refs := (stopSession st.refs).1 }
  | AsyncEvent.connectResolves ch =>
    { st with
      refs := { st.refs with session := some ch }
      promiseResolved := some ch
      sentOnChannel := st.sentOnChannel ++ st.pendingSends
      pendingSends := [] }
  | AsyncEvent.openFires timerId =>
    { st with refs := { st.refs with
        isActive := true
        isConnecting := false
        frameInterval := some timerId
        timerAlive := true } }
  | AsyncEvent.videoTick frame =>
    if st.refs.timerAlive then
      match st.promiseResolved with
      | some _ => { st with sentOnChannel := st.sentOnChannel ++ [frame] }
      | none => { st with pendingSends := st.pendingSends ++ [frame] }
    else st

/-- Run a sequence of event-loop reactions. -/
def runAsync (st : AsyncState) (evs : List AsyncEvent) : AsyncState :=
  evs.foldl stepAsync st

/-- The refs while the `ai.live.connect()` promise is outstanding: devices
granted, contexts created, no channel yet, no timer yet. -/
def connectingRefs : SessionRefs :=
  { isActive := false
    isConnecting := true
    session := none
    stream := some [⟨false⟩, ⟨false⟩]
    frameInterval := none
    timerAlive := false
    ctxIn := some ⟨false⟩
    ctxOut := some ⟨false⟩ }

/-- A fully live session's refs. -/
def activeRefs : SessionRefs :=
  { isActive := true
    isConnecting := false
    session := some 1
    stream := some [⟨false⟩, ⟨false⟩]
    frameInterval := some 1
    timerAlive := true
    ctxIn := some ⟨false⟩
    ctxOut := some ⟨false⟩ }

instance {ε α : Type} [DecidableEq ε] [DecidableEq α] : DecidableEq (Except ε α)
  | Except.error e, Except.error f =>
    if h : e = f then isTrue (by rw [h]) else isFalse (by intro hh; cases hh; exact h rfl)
  | Except.error _, Except.ok _ => isFalse (by intro h; cases h)
  | Except.ok _, Except.error _ => isFalse (by intro h; cases h)
  | Except.ok a, Except.ok b =>
    if h : a = b then isTrue (by rw [h]) else isFalse (by intro hh; cases hh; exact h rfl)

/-- An event carrying both transcription fields at once (possible in the
wire type; the source's `else if` keeps only the output fragment). -/
def bothFieldsMsg : LiveServerMessage :=
  ⟨some { emptyContent with
            outputTranscription := some ⟨"a"⟩
            inputTranscription := some ⟨"b"⟩ }⟩

/-- A Boolean payload validity check: non-empty, decodable base64, even
byte count (so that handling it raises no runtime error). -/
def validPayload (s : String) : Bool :=
  s != "" &&
    match atob s with
    | some bytes => bytes.length % 2 != 1
    | none => false

/-- Duration the scheduler derives from a payload string. -/
def payloadDur (s : String) : ℚ :=
  bufferDuration ((atob s).getD [])

/-- Back-to-back schedule: each source starts where the previous ended. -/
def schedList : ℚ → List ℚ → List ScheduledSource
  | _, [] => []
  | t, d :: ds => ⟨t, d⟩ :: schedList (t + d) ds

/-- `noUnderrun c pairs`: at each payload arrival the output clock has not
overtaken the running cursor (which starts at `c` and advances by each
payload's duration). -/
def noUnderrun : ℚ → List (String × ℚ) → Bool
  | _, [] => true
  | c, (s, t) :: rest => decide (t ≤ c) && noUnderrun (c + payloadDur s) rest

/-- Audio-payload events from (payload, clock-reading) pairs. -/
def audioMsgs (pairs : List (String × ℚ)) (n : ℕ) : List (LiveServerMessage × MsgCtx) :=
  pairs.map fun p => (audioMsg p.1, ⟨p.2, n⟩)

/-- Concatenation, in order, of the fragments belonging to one speaker. -/
def concatFor (r : Role) : List (Role × String) → String
  | [] => ""
  | (r', t) :: rest => if r' = r then t ++ concatFor r rest else concatFor r rest

/-- Shapes of the `modelTurn.parts` slot: absent, empty, a part without
`inlineData`, a part whose `inlineData` lacks `data`. -/
def partsShape : ℕ → Option (List TurnPart)
  | 0 => none
  | 1 => some []
  | 2 => some [⟨none⟩]
  | _ => some [⟨some ⟨none⟩⟩]

/-- An event shape in which each optional field is independently present
(with an inert value) or absent. -/
def mkShape (hasSC hasOT hasIT hasTC hasMT : Bool) (ps : ℕ) (hasIntr : Bool) :
    LiveServerMessage :=
  if hasSC then
    ⟨some ⟨ if hasOT then some ⟨"x"⟩ else none,
            if hasIT then some ⟨"y"⟩ else none,
            if hasTC then some true else none,
            if hasMT then some ⟨partsShape ps⟩ else none,
            if hasIntr then some true else none ⟩⟩
  else ⟨none⟩

/-! ### Helper lemmas about the router steps -/

theorem onmessage_interrupt_eq (ctx : MsgCtx) (st : RouterState) :
    onmessage interruptMsg ctx st = Except.ok { st with nextStartTime := 0 } :=
  rfl

theorem onmessage_frag_user (ctx : MsgCtx) (st : RouterState) (t : String) :
    onmessage (fragMsg Role.user t) ctx st
      = Except.ok { st with currentInText := st.currentInText ++ t } :=
  rfl

theorem onmessage_frag_assistant (ctx : MsgCtx) (st : RouterState) (t : String) :
    onmessage (fragMsg Role.assistant t) ctx st
      = Except.ok { st with currentOutText := st.currentOutText ++ t } :=
  rfl

theorem onmessage_turnComplete_eq (ctx : MsgCtx) (st : RouterState) :
    onmessage turnCompleteMsg ctx st = Except.ok { st with
      currentInText := ""
      currentOutText := ""
      transcriptions := st.transcriptions
        ++ (if st.currentInText = "" then [] else [⟨Role.user, st.currentInText, ctx.dateNow⟩])
        ++ (if st.currentOutText = "" then []
            else [⟨Role.assistant, st.currentOutText, ctx.dateNow⟩]) } := by
  show Except.ok (turnCompleteStep turnCompleteMsg ctx st) = _
  by_cases h1 : st.currentInText = "" <;> by_cases h2 : st.currentOutText = "" <;>
    simp [turnCompleteStep, turnCompleteMsg, emptyContent, h1, h2]

theorem onmessage_audio_eq (ctx : MsgCtx) (st : RouterState) (s : String) (bytes : List ℕ)
    (hs : s ≠ "") (hb : atob s = some bytes) (hev : bytes.length % 2 ≠ 1) :
    onmessage (audioMsg s) ctx st = Except.ok { st with
      nextStartTime := max st.nextStartTime ctx.outNow + bufferDuration bytes
      scheduled := st.scheduled
        ++ [⟨max st.nextStartTime ctx.outNow, bufferDuration bytes⟩] } := by
  have hplay : playbackStep (audioMsg s) ctx st
      = if s = "" then Except.ok st
        else
          match atob s with
          | none => Except.error RouterError.invalidBase64
          | some bytes =>
            if bytes.length % 2 = 1 then Except.error RouterError.oddPayload
            else Except.ok { st with
              nextStartTime := max st.nextStartTime ctx.outNow + bufferDuration bytes
              scheduled := st.scheduled
                ++ [⟨max st.nextStartTime ctx.outNow, bufferDuration bytes⟩] } := rfl
  show (playbackStep (audioMsg s) ctx st).bind
      (fun st3 => Except.ok (interruptionStep (audioMsg s) st3)) = _
  rw [hplay, if_neg hs, hb]
  show (if bytes.length % 2 = 1 then Except.error RouterError.oddPayload
        else Except.ok { st with
          nextStartTime := max st.nextStartTime ctx.outNow + bufferDuration bytes
          scheduled := st.scheduled
            ++ [⟨max st.nextStartTime ctx.outNow, bufferDuration bytes⟩] }).bind
      (fun st3 => Except.ok (interruptionStep (audioMsg s) st3)) = _
  rw [if_neg hev]
  rfl

theorem onmessage_audio_valid (ctx : MsgCtx) (st : RouterState) (s : String)
    (hv : validPayload s = true) :
    onmessage (audioMsg s) ctx st = Except.ok { st with
      nextStartTime := max st.nextStartTime ctx.outNow + payloadDur s
      scheduled := st.scheduled
        ++ [⟨max st.nextStartTime ctx.outNow, payloadDur s⟩] } := by
  rw [validPayload] at hv
  cases hab : atob s with
  | none => rw [hab] at hv; simp at hv
  | some bytes =>
    rw [hab] at hv
    simp only [Bool.and_eq_true, bne_iff_ne, ne_eq, String.ext_iff] at hv
    have hs : s ≠ "" := fun he => by simp [he] at hv
    have hev : bytes.length % 2 ≠ 1 := by
      rcases hv with ⟨-, hv2⟩
      simpa using hv2
    rw [onmessage_audio_eq ctx st s bytes hs hab hev, payloadDur, hab]
    rfl

theorem okBind {α β : Type} (a : α) (f : α → Except RouterError β) :
    (Except.ok a : Except RouterError α).bind f = f a := rfl

theorem errBind {α β : Type} (e : RouterError) (f : α → Except RouterError β) :
    (Except.error e : Except RouterError α).bind f = Except.error e := rfl

theorem onmessage_eq (m : LiveServerMessage) (ctx : MsgCtx) (st : RouterState) :
    onmessage m ctx st
      = (playbackStep m ctx (turnCompleteStep m ctx (transcriptionStep m st))).bind
          (fun st3 => Except.ok (interruptionStep m st3)) :=
  rfl

theorem playbackStep_eq (m : LiveServerMessage) (ctx : MsgCtx) (st : RouterState) :
    playbackStep m ctx st
      = (extractAudioData m).bind (fun audioData =>
          match audioData with
          | none => Except.ok st
          | some s =>
            if s = "" then Except.ok st
            else
              match atob s with
              | none => Except.error RouterError.invalidBase64
              | some bytes =>
                if bytes.length % 2 = 1 then Except.error RouterError.oddPayload
                else Except.ok { st with
                  nextStartTime := max st.nextStartTime ctx.outNow + bufferDuration bytes
                  scheduled := st.scheduled
                    ++ [⟨max st.nextStartTime ctx.outNow, bufferDuration bytes⟩] }) :=
  rfl

theorem transcriptionStep_scheduled (m : LiveServerMessage) (st : RouterState) :
    (transcriptionStep m st).scheduled = st.scheduled := by
  unfold transcriptionStep
  repeat' split
  all_goals rfl

theorem turnCompleteStep_scheduled (m : LiveServerMessage) (ctx : MsgCtx) (st : RouterState) :
    (turnCompleteStep m ctx st).scheduled = st.scheduled := by
  by_cases ht : (m.serverContent.bind ServerContent.turnComplete).getD false
  · by_cases h1 : st.currentInText = "" <;> by_cases h2 : st.currentOutText = "" <;>
      simp [turnCompleteStep, ht, h1, h2]
  · simp [turnCompleteStep, ht]

theorem interruptionStep_scheduled (m : LiveServerMessage) (st : RouterState) :
    (interruptionStep m st).scheduled = st.scheduled := by
  unfold interruptionStep
  split
  all_goals rfl

theorem playbackStep_sched_ge (m : LiveServerMessage) (ctx : MsgCtx) (st st' : RouterState)
    (h : playbackStep m ctx st = Except.ok st') :
    ∀ src ∈ st'.scheduled, src ∈ st.scheduled ∨ ctx.outNow ≤ src.startTime := by
  intro src hsrc
  rw [playbackStep_eq] at h
  cases hex : extractAudioData m with
  | error e =>
    rw [hex, errBind] at h
    cases h
  | ok od =>
    rw [hex, okBind] at h
    cases od with
    | none =>
      cases h
      exact Or.inl hsrc
    | some s =>
      replace h : (if s = "" then Except.ok st
          else
            match atob s with
            | none => Except.error RouterError.invalidBase64
            | some bytes =>
              if bytes.length % 2 = 1 then Except.error RouterError.oddPayload
              else Except.ok { st with
                nextStartTime := max st.nextStartTime ctx.outNow + bufferDuration bytes
                scheduled := st.scheduled
                  ++ [⟨max st.nextStartTime ctx.outNow, bufferDuration bytes⟩] })
          = Except.ok st' := h
      by_cases hs : s = ""
      · rw [if_pos hs] at h
        cases h
        exact Or.inl hsrc
      · rw [if_neg hs] at h
        cases hab : atob s with
        | none => rw [hab] at h; cases h
        | some bytes =>
          rw [hab] at h
          replace h : (if bytes.length % 2 = 1 then Except.error RouterError.oddPayload
              else Except.ok { st with
                nextStartTime := max st.nextStartTime ctx.outNow + bufferDuration bytes
                scheduled := st.scheduled
                  ++ [⟨max st.nextStartTime ctx.outNow, bufferDuration bytes⟩] })
              = Except.ok st' := h
          by_cases hev : bytes.length % 2 = 1
          · rw [if_pos hev] at h; cases h
          · rw [if_neg hev] at h
            cases h
            rcases List.mem_append.1 hsrc with hold | hnew
            · exact Or.inl hold
            · right
              rcases List.mem_singleton.1 hnew with rfl
              exact le_max_right _ _

theorem onmessage_sched_ge (m : LiveServerMessage) (ctx : MsgCtx) (st st' : RouterState)
    (h : onmessage m ctx st = Except.ok st') :
    ∀ src ∈ st'.scheduled, src ∈ st.scheduled ∨ ctx.outNow ≤ src.startTime := by
  intro src hsrc
  rw [onmessage_eq] at h
  cases hps : playbackStep m ctx (turnCompleteStep m ctx (transcriptionStep m st)) with
  | error e =>
    rw [hps, errBind] at h
    cases h
  | ok st3 =>
    rw [hps, okBind] at h
    cases h
    rw [interruptionStep_scheduled] at hsrc
    have hmem := playbackStep_sched_ge m ctx _ st3 hps src hsrc
    rwa [turnCompleteStep_scheduled, transcriptionStep_scheduled] at hmem

theorem processMessages_cons (m : LiveServerMessage) (ctx : MsgCtx)
    (rest : List (LiveServerMessage × MsgCtx)) (st : RouterState) :
    processMessages ((m, ctx) :: rest) st
      = (onmessage m ctx st).bind (fun st1 => processMessages rest st1) :=
  rfl

theorem processMessages_sched_ge (T : ℚ) :
    ∀ (msgs : List (LiveServerMessage × MsgCtx)) (st st' : RouterState),
    processMessages msgs st = Except.ok st' →
    (∀ p ∈ msgs, T ≤ p.2.outNow) →
    ∀ src ∈ st'.scheduled, src ∈ st.scheduled ∨ T ≤ src.startTime := by
  intro msgs
  induction msgs with
  | nil =>
    intro st st' h _ src hsrc
    cases h
    exact Or.inl hsrc
  | cons p rest ih =>
    intro st st' h hclocks src hsrc
    obtain ⟨m, ctx⟩ := p
    rw [processMessages_cons] at h
    cases ho : onmessage m ctx st with
    | error e =>
      rw [ho, errBind] at h
      cases h
    | ok st1 =>
      rw [ho, okBind] at h
      rcases ih st1 st' h (fun q hq => hclocks q (List.mem_cons_of_mem _ hq)) src hsrc with
        h1 | h2
      · rcases onmessage_sched_ge m ctx st st1 ho src h1 with h3 | h4
        · exact Or.inl h3
        · exact Or.inr (le_trans (hclocks (m, ctx) (List.mem_cons_self _ _)) h4)
      · exact Or.inr h2

theorem processMessages_append (xs ys : List (LiveServerMessage × MsgCtx)) (st : RouterState) :
    processMessages (xs ++ ys) st
      = (processMessages xs st).bind (fun st1 => processMessages ys st1) := by
  induction xs generalizing st with
  | nil => rfl
  | cons p rest ih =>
    obtain ⟨m, ctx⟩ := p
    rw [List.cons_append, processMessages_cons, processMessages_cons]
    cases ho : onmessage m ctx st with
    | error e => exact (errBind e _).symm
    | ok st1 => rw [okBind, okBind]; exact ih st1

/-! ### Claim C10: interruption frame effect -/

/-- C10: an interruption signal modifies only the Playback Cursor — both
pending text buffers, the transcript sequence, and every already-scheduled
audio buffer source are left unchanged (nothing is cancelled; the model has
no cancellation operation, matching the source, which never calls
`source.stop`). -/
theorem c10_interrupt_frame (ctx : MsgCtx) (st : RouterState) :
    ∃ st', onmessage interruptMsg ctx st = Except.ok st' ∧
      st'.nextStartTime = 0 ∧
      st'.currentInText = st.currentInText ∧
      st'.currentOutText = st.currentOutText ∧
      st'.transcriptions = st.transcriptions ∧
      st'.scheduled = st.scheduled :=
  ⟨{ st with nextStartTime := 0 }, onmessage_interrupt_eq ctx st, rfl, rfl, rfl, rfl, rfl⟩

/-! ### Claim C1: interruption resets the cursor -/

/-- C1 counterexample: with the output clock at T = 5 and the cursor at 10,
an interruption resets the cursor to 0, not to the clock's current time 5
as the claim states. -/
theorem c1_counterexample :
    (onmessage interruptMsg ⟨5, 0⟩
        { initialRouterState with nextStartTime := 10 }).toOption.map
      RouterState.nextStartTime = some 0 ∧ (0 : ℚ) ≠ 5 :=
  ⟨rfl, by decide⟩

/-- C1 (amended): an interruption signal at clock time T resets the
Playback Cursor to 0 (not to T), leaving the schedule unchanged; any audio
payload processed afterwards, while the monotone clock reads ≥ T, is still
scheduled to start at a time ≥ T, never earlier, because each payload
clamps its start to `max(cursor, now)`. -/
theorem c1_amended (st st1 st2 : RouterState) (T : ℚ) (n : ℕ)
    (msgs : List (LiveServerMessage × MsgCtx))
    (h1 : onmessage interruptMsg ⟨T, n⟩ st = Except.ok st1)
    (hclocks : ∀ p ∈ msgs, T ≤ p.2.outNow)
    (h2 : processMessages msgs st1 = Except.ok st2) :
    st1.nextStartTime = 0 ∧ st1.scheduled = st.scheduled ∧
      ∀ src ∈ st2.scheduled, src ∈ st.scheduled ∨ T ≤ src.startTime := by
  rw [onmessage_interrupt_eq] at h1
  injection h1 with h1
  subst h1
  refine ⟨rfl, rfl, ?_⟩
  intro src hsrc
  exact processMessages_sched_ge T msgs _ st2 h2 hclocks src hsrc

def c1wSt0 : RouterState := { initialRouterState with nextStartTime := 10 }

def c1wSt1 : RouterState := { c1wSt0 with nextStartTime := 0 }

def c1wMsgs : List (LiveServerMessage × MsgCtx) := [(audioMsg "AAA=", ⟨6, 0⟩)]

def c1wSt2 : RouterState := { c1wSt1 with
  nextStartTime := max c1wSt1.nextStartTime 6 + bufferDuration [0, 0]
  scheduled := c1wSt1.scheduled ++ [⟨max c1wSt1.nextStartTime 6, bufferDuration [0, 0]⟩] }

/-- C1 witness: the amended theorem applied at a concrete interruption
(T = 5, prior cursor 10) followed by one audio payload at clock 6. -/
theorem c1_amended_witness :
    c1wSt1.nextStartTime = 0 ∧ c1wSt1.scheduled = c1wSt0.scheduled ∧
      ∀ src ∈ c1wSt2.scheduled, src ∈ c1wSt0.scheduled ∨ (5 : ℚ) ≤ src.startTime := by
  have h1 : onmessage interruptMsg ⟨5, 0⟩ c1wSt0 = Except.ok c1wSt1 := rfl
  have hclocks : ∀ p ∈ c1wMsgs, (5 : ℚ) ≤ p.2.outNow := by decide
  have h2 : processMessages c1wMsgs c1wSt1 = Except.ok c1wSt2 := by
    rw [c1wMsgs, processMessages_cons,
      onmessage_audio_eq ⟨6, 0⟩ c1wSt1 "AAA=" [0, 0] (by decide) (by decide) (by decide),
      okBind]
    rfl
  exact c1_amended c1wSt0 c1wSt1 c1wSt2 5 0 c1wMsgs h1 hclocks h2

/-! ### Claim C2: turn-complete flush -/

/-- C2: on a turn-complete signal, a non-empty user buffer is flushed
first, then a non-empty assistant buffer, each as an entry with the
current time; with both buffers non-empty exactly two entries are appended
(user immediately preceding assistant), with both empty none are; both
buffers are cleared regardless, and the cursor and schedule are
untouched. -/
theorem c2_turn_flush (ctx : MsgCtx) (st : RouterState) :
    ∃ st', onmessage turnCompleteMsg ctx st = Except.ok st' ∧
      st'.currentInText = "" ∧ st'.currentOutText = "" ∧
      st'.nextStartTime = st.nextStartTime ∧ st'.scheduled = st.scheduled ∧
      st'.transcriptions = st.transcriptions
        ++ (if st.currentInText = "" then [] else [⟨Role.user, st.currentInText, ctx.dateNow⟩])
        ++ (if st.currentOutText = "" then []
            else [⟨Role.assistant, st.currentOutText, ctx.dateNow⟩]) ∧
      (st.currentInText ≠ "" → st.currentOutText ≠ "" →
        st'.transcriptions = st.transcriptions
          ++ [⟨Role.user, st.currentInText, ctx.dateNow⟩,
              ⟨Role.assistant, st.currentOutText, ctx.dateNow⟩]) ∧
      (st.currentInText = "" → st.currentOutText = "" →
        st'.transcriptions = st.transcriptions) := by
  refine ⟨_, onmessage_turnComplete_eq ctx st, rfl, rfl, rfl, rfl, rfl, ?_, ?_⟩
  · intro h1 h2
    simp [h1, h2]
  · intro h1 h2
    simp [h1, h2]

def c2wSt : RouterState :=
  { initialRouterState with currentInText := "hi", currentOutText := "yo" }

/-- C2 witness: the flush theorem applied at a state with both buffers
non-empty. -/
theorem c2_turn_flush_witness :
    ∃ st', onmessage turnCompleteMsg ⟨0, 42⟩ c2wSt = Except.ok st' ∧
      st'.currentInText = "" ∧ st'.currentOutText = "" ∧
      st'.nextStartTime = c2wSt.nextStartTime ∧ st'.scheduled = c2wSt.scheduled ∧
      st'.transcriptions = c2wSt.transcriptions
        ++ (if c2wSt.currentInText = "" then []
            else [⟨Role.user, c2wSt.currentInText, (42 : ℕ)⟩])
        ++ (if c2wSt.currentOutText = "" then []
            else [⟨Role.assistant, c2wSt.currentOutText, (42 : ℕ)⟩]) ∧
      (c2wSt.currentInText ≠ "" → c2wSt.currentOutText ≠ "" →
        st'.transcriptions = c2wSt.transcriptions
          ++ [⟨Role.user, c2wSt.currentInText, (42 : ℕ)⟩,
              ⟨Role.assistant, c2wSt.currentOutText, (42 : ℕ)⟩]) ∧
      (c2wSt.currentInText = "" → c2wSt.currentOutText = "" →
        st'.transcriptions = c2wSt.transcriptions) :=
  c2_turn_flush ⟨0, 42⟩ c2wSt

/-! ### Claim C3: contiguous playback scheduling -/

theorem audioMsgs_cons (s : String) (t : ℚ) (rest : List (String × ℚ)) (n : ℕ) :
    audioMsgs ((s, t) :: rest) n = (audioMsg s, (⟨t, n⟩ : MsgCtx)) :: audioMsgs rest n :=
  rfl

theorem onmessage_audio_valid_at (t : ℚ) (n : ℕ) (st : RouterState) (s : String)
    (hv : validPayload s = true) :
    onmessage (audioMsg s) ⟨t, n⟩ st = Except.ok { st with
      nextStartTime := max st.nextStartTime t + payloadDur s
      scheduled := st.scheduled ++ [⟨max st.nextStartTime t, payloadDur s⟩] } :=
  onmessage_audio_valid ⟨t, n⟩ st s hv

theorem processMessages_audio_underrun (n : ℕ) :
    ∀ (pairs : List (String × ℚ)) (st : RouterState),
    (∀ p ∈ pairs, validPayload p.1 = true) →
    noUnderrun st.nextStartTime pairs = true →
    processMessages (audioMsgs pairs n) st = Except.ok { st with
      nextStartTime := st.nextStartTime + (pairs.map fun p => payloadDur p.1).sum
      scheduled := st.scheduled
        ++ schedList st.nextStartTime (pairs.map fun p => payloadDur p.1) } := by
  intro pairs
  induction pairs with
  | nil =>
    intro st _ _
    simp [audioMsgs, processMessages, schedList]
  | cons p rest ih =>
    obtain ⟨s, t⟩ := p
    intro st hv hnu
    rw [noUnderrun] at hnu
    simp only [Bool.and_eq_true, decide_eq_true_eq] at hnu
    obtain ⟨hle, hnu2⟩ := hnu
    rw [audioMsgs_cons, processMessages_cons,
      onmessage_audio_valid_at t n st s (hv (s, t) (List.mem_cons_self _ _)), okBind,
      max_eq_left hle,
      ih _ (fun q hq => hv q (List.mem_cons_of_mem _ hq)) hnu2]
    simp [schedList, add_assoc, List.append_assoc]

/-- C3 counterexample: two payloads of duration 1/24000, the first arriving
at clock time 0, the second at clock time 1.  The cursor ends at
1 + 1/24000, not at the claimed clock-at-first-arrival plus the sum of the
durations (2/24000): with a late second arrival the clamp
`max(cursor, now)` breaks contiguity. -/
theorem c3_counterexample :
    (processMessages (audioMsgs [("AAA=", 0), ("AAA=", 1)] 0)
        initialRouterState).toOption.map RouterState.nextStartTime
      = some (1 + 1 / 24000) ∧
    (1 + 1 / 24000 : ℚ) ≠ 0 + (1 / 24000 + 1 / 24000) := by
  constructor
  · have hd : bufferDuration [0, 0] = 1 / 24000 := by norm_num [bufferDuration]
    have e1 := onmessage_audio_eq ⟨0, 0⟩ initialRouterState "AAA=" [0, 0]
      (by decide) (by decide) (by decide)
    rw [audioMsgs_cons, audioMsgs_cons, processMessages_cons, e1, okBind,
      processMessages_cons,
      onmessage_audio_eq ⟨1, 0⟩ _ "AAA=" [0, 0] (by decide) (by decide) (by decide), okBind]
    show some _ = _
    norm_num [hd, initialRouterState]
  · norm_num

/-- C3 (amended): for a sequence of audio payloads with no interruption,
provided the cursor has not fallen behind the clock at the first arrival
(`cursor ≤ t₁`) and the clock never overtakes the advancing cursor at the
later arrivals, the scheduler is exactly contiguous: the new sources start
back-to-back from t₁ and the final cursor is t₁ plus the sum of the
decoded buffer durations.  Without the no-underrun proviso contiguity
fails (see the counterexample). -/
theorem c3_amended (s1 : String) (t1 : ℚ) (rest : List (String × ℚ))
    (st : RouterState) (n : ℕ)
    (hv : ∀ p ∈ (s1, t1) :: rest, validPayload p.1 = true)
    (hstart : st.nextStartTime ≤ t1)
    (hnu : noUnderrun (t1 + payloadDur s1) rest = true) :
    processMessages (audioMsgs ((s1, t1) :: rest) n) st = Except.ok { st with
      nextStartTime := t1 + (((s1, t1) :: rest).map fun p => payloadDur p.1).sum
      scheduled := st.scheduled
        ++ schedList t1 ((((s1, t1) :: rest)).map fun p => payloadDur p.1) } := by
  rw [audioMsgs_cons, processMessages_cons,
    onmessage_audio_valid_at t1 n st s1 (hv _ (List.mem_cons_self _ _)), okBind,
    max_eq_right hstart,
    processMessages_audio_underrun n rest _
      (fun q hq => hv q (List.mem_cons_of_mem _ hq)) hnu]
  simp [schedList, add_assoc, List.append_assoc]

/-- C3 witness: the amended theorem at two immediate back-to-back payloads
(both clocks read 0). -/
theorem c3_amended_witness :
    processMessages (audioMsgs [("AAA=", 0), ("AAA=", 0)] 0) initialRouterState
      = Except.ok { initialRouterState with
        nextStartTime := 0 + (([(("AAA=" : String), (0 : ℚ)), ("AAA=", 0)].map
          fun p => payloadDur p.1).sum)
        scheduled := initialRouterState.scheduled
          ++ schedList 0 ([(("AAA=" : String), (0 : ℚ)), ("AAA=", 0)].map
            fun p => payloadDur p.1) } := by
  have ha : atob "AAA=" = some [0, 0] := by decide
  refine c3_amended "AAA=" 0 [("AAA=", 0)] initialRouterState 0 (by decide) (by decide) ?_
  rw [noUnderrun]
  simp only [Bool.and_eq_true, decide_eq_true_eq]
  refine ⟨?_, rfl⟩
  norm_num [payloadDur, bufferDuration, ha]

/-! ### Claim C4: fragment accumulation per speaker -/

/-- C4 counterexample: an event carrying both an `outputTranscription`
("a") and an `inputTranscription` ("b") leaves the user pending buffer
empty — the `else if` drops the input fragment, so it is not appended as
the claim states. -/
theorem c4_counterexample :
    (onmessage bothFieldsMsg ⟨0, 0⟩ initialRouterState).toOption.map
        RouterState.currentInText = some "" ∧ ("" : String) ≠ "b" :=
  ⟨rfl, by decide⟩

theorem c4_frag_fold (ctx : MsgCtx) :
    ∀ (frags : List (Role × String)) (st : RouterState),
    processMessages (frags.map fun f => (fragMsg f.1 f.2, ctx)) st = Except.ok { st with
      currentInText := st.currentInText ++ concatFor Role.user frags
      currentOutText := st.currentOutText ++ concatFor Role.assistant frags } := by
  intro frags
  induction frags with
  | nil =>
    intro st
    simp [processMessages, concatFor]
  | cons f rest ih =>
    obtain ⟨r, t⟩ := f
    intro st
    cases r with
    | user =>
      rw [List.map_cons, processMessages_cons, onmessage_frag_user, okBind, ih]
      simp [concatFor, String.append_assoc]
    | assistant =>
      rw [List.map_cons, processMessages_cons, onmessage_frag_assistant, okBind, ih]
      simp [concatFor, String.append_assoc]

/-- C4 (amended): every event carries at most one fragment — the output
fragment if present, otherwise the input fragment (an event with both
fields keeps only the output one, see the counterexample).  For
single-fragment events, each fragment is appended to its speaker's
pending buffer, and after a turn-complete the finalized entry text for
each speaker is exactly the concatenation of that speaker's fragments in
arrival order. -/
theorem c4_amended (frags : List (Role × String)) (ctx ctx2 : MsgCtx) (st : RouterState) :
    (processMessages (frags.map fun f => (fragMsg f.1 f.2, ctx)) st = Except.ok { st with
      currentInText := st.currentInText ++ concatFor Role.user frags
      currentOutText := st.currentOutText ++ concatFor Role.assistant frags }) ∧
    (st.currentInText = "" → st.currentOutText = "" →
      ∃ st2,
        processMessages ((frags.map fun f => (fragMsg f.1 f.2, ctx))
            ++ [(turnCompleteMsg, ctx2)]) st = Except.ok st2 ∧
        st2.currentInText = "" ∧ st2.currentOutText = "" ∧
        st2.transcriptions = st.transcriptions
          ++ (if concatFor Role.user frags = "" then []
              else [⟨Role.user, concatFor Role.user frags, ctx2.dateNow⟩])
          ++ (if concatFor Role.assistant frags = "" then []
              else [⟨Role.assistant, concatFor Role.assistant frags, ctx2.dateNow⟩])) := by
  refine ⟨c4_frag_fold ctx frags st, ?_⟩
  intro hin hout
  rw [processMessages_append, c4_frag_fold ctx frags st, okBind,
    processMessages_cons, onmessage_turnComplete_eq, okBind]
  refine ⟨_, rfl, rfl, rfl, ?_⟩
  simp [hin, hout]

/-- C4 witness: the amended theorem at the fragment sequence
`assistant "Hello"`, `assistant " there"`, `user "ok"` from the empty
initial state. -/
theorem c4_amended_witness :
    (processMessages ([((Role.assistant : Role), ("Hello" : String)),
        (Role.assistant, " there"), (Role.user, "ok")].map
          fun f => (fragMsg f.1 f.2, (⟨0, 0⟩ : MsgCtx))) initialRouterState
      = Except.ok { initialRouterState with
          currentInText := initialRouterState.currentInText
            ++ concatFor Role.user [(Role.assistant, "Hello"),
                (Role.assistant, " there"), (Role.user, "ok")]
          currentOutText := initialRouterState.currentOutText
            ++ concatFor Role.assistant [(Role.assistant, "Hello"),
                (Role.assistant, " there"), (Role.user, "ok")] }) ∧
    (initialRouterState.currentInText = "" → initialRouterState.currentOutText = "" →
      ∃ st2,
        processMessages (([((Role.assistant : Role), ("Hello" : String)),
            (Role.assistant, " there"), (Role.user, "ok")].map
              fun f => (fragMsg f.1 f.2, (⟨0, 0⟩ : MsgCtx)))
            ++ [(turnCompleteMsg, (⟨0, 7⟩ : MsgCtx))]) initialRouterState = Except.ok st2 ∧
        st2.currentInText = "" ∧ st2.currentOutText = "" ∧
        st2.transcriptions = initialRouterState.transcriptions
          ++ (if concatFor Role.user [(Role.assistant, "Hello"),
                (Role.assistant, " there"), (Role.user, "ok")] = "" then []
              else [⟨Role.user, concatFor Role.user [(Role.assistant, "Hello"),
                (Role.assistant, " there"), (Role.user, "ok")], (7 : ℕ)⟩])
          ++ (if concatFor Role.assistant [(Role.assistant, "Hello"),
                (Role.assistant, " there"), (Role.user, "ok")] = "" then []
              else [⟨Role.assistant, concatFor Role.assistant [(Role.assistant, "Hello"),
                (Role.assistant, " there"), (Role.user, "ok")], (7 : ℕ)⟩])) :=
  c4_amended [(Role.assistant, "Hello"), (Role.assistant, " there"), (Role.user, "ok")]
    ⟨0, 0⟩ ⟨0, 7⟩ initialRouterState

/-! ### Claim C5: `stopSession` idempotence and teardown -/

theorem closeCtx_fst (c : AudioCtx) : (closeCtx c).1 = ⟨true⟩ := by
  cases c with
  | mk b => cases b <;> rfl

theorem stopSession_refs (s : SessionRefs) :
    (stopSession s).1
      = { isActive := false
          isConnecting := false
          session := none
          stream := s.stream.map (fun ts => ts.map fun _ => ⟨true⟩)
          frameInterval := s.frameInterval
          timerAlive := if s.frameInterval.isSome then false else s.timerAlive
          ctxIn := s.ctxIn.map fun _ => ⟨true⟩
          ctxOut := s.ctxOut.map fun _ => ⟨true⟩ } := by
  obtain ⟨a, b, sess, str, fi, ta, ci, co⟩ := s
  cases str <;> cases ci <;> cases co <;> simp [stopSession, closeCtx_fst]

/-- C5 counterexample: the first `stopSession` closes the input audio
context; a second call re-issues that close (the context ref was never
cleared) and the duplicate release rejects (`close()` on an already-closed
AudioContext returns a rejected promise) — contradicting "no duplicate
resource release that can fail". -/
theorem c5_counterexample :
    (ReleaseAction.closeCtxIn, ReleaseResult.ok) ∈ (stopSession activeRefs).2 ∧
    (ReleaseAction.closeCtxIn, ReleaseResult.rejected)
      ∈ (stopSession (stopSession activeRefs).1).2 := by
  decide

/-- C5 (amended): `stopSession`, called in any state (including before any
start, all refs null) never throws (it is total) and leaves the session
closed/idle: flags cleared, channel handle unreferenced, all tracks of a
held stream stopped, the video timer cancelled, any held contexts closed.
It is idempotent on the refs state, and a repeated call never re-closes
the channel (that release alone is guarded, by the nulled handle); but
repeated calls do re-issue the track/timer/context releases, the context
close rejecting (see the counterexample).  The timer hypothesis states the
reachable-state invariant that a live timer implies a stored timer id. -/
theorem c5_amended (s : SessionRefs)
    (htimer : s.timerAlive = true → s.frameInterval ≠ none) :
    (stopSession s).1.isActive = false ∧
    (stopSession s).1.isConnecting = false ∧
    (stopSession s).1.session = none ∧
    (∀ ts, (stopSession s).1.stream = some ts → ∀ tr ∈ ts, tr.stopped = true) ∧
    (stopSession s).1.timerAlive = false ∧
    (∀ c, (stopSession s).1.ctxIn = some c → c.closed = true) ∧
    (∀ c, (stopSession s).1.ctxOut = some c → c.closed = true) ∧
    (stopSession (stopSession s).1).1 = (stopSession s).1 ∧
    (∀ ar ∈ (stopSession (stopSession s).1).2, ar.1 ≠ ReleaseAction.closeChannel) := by
  rw [stopSession_refs s]
  refine ⟨rfl, rfl, rfl, ?_, ?_, ?_, ?_, ?_, ?_⟩
  · intro ts hts tr htr
    obtain ⟨ts0, -, rfl⟩ := Option.map_eq_some'.1 hts
    obtain ⟨x, -, rfl⟩ := List.mem_map.1 htr
    rfl
  · rcases hopt : s.frameInterval with _ | v
    · simp only [hopt, Option.isSome_none, Bool.false_eq_true, if_false]
      cases hta : s.timerAlive with
      | false => rfl
      | true => exact absurd hopt (htimer hta)
    · simp
  · intro c hc
    obtain ⟨c0, -, rfl⟩ := Option.map_eq_some'.1 hc
    rfl
  · intro c hc
    obtain ⟨c0, -, rfl⟩ := Option.map_eq_some'.1 hc
    rfl
  · rw [stopSession_refs]
    cases hfi : s.frameInterval <;>
      simp [Option.map_map, List.map_map, Function.comp_def]
  · cases hstr : s.stream <;> cases hfi : s.frameInterval <;>
      cases hci : s.ctxIn <;> cases hco : s.ctxOut <;>
      simp [stopSession, closeCtx]

/-- C5 witness: the amended theorem at a fully live session's refs. -/
theorem c5_amended_witness :
    (stopSession activeRefs).1.isActive = false ∧
    (stopSession activeRefs).1.isConnecting = false ∧
    (stopSession activeRefs).1.session = none ∧
    (∀ ts, (stopSession activeRefs).1.stream = some ts → ∀ tr ∈ ts, tr.stopped = true) ∧
    (stopSession activeRefs).1.timerAlive = false ∧
    (∀ c, (stopSession activeRefs).1.ctxIn = some c → c.closed = true) ∧
    (∀ c, (stopSession activeRefs).1.ctxOut = some c → c.closed = true) ∧
    (stopSession (stopSession activeRefs).1).1 = (stopSession activeRefs).1 ∧
    (∀ ar ∈ (stopSession (stopSession activeRefs).1).2,
      ar.1 ≠ ReleaseAction.closeChannel) :=
  c5_amended activeRefs (by decide)

/-! ### Claim C6: completions arriving after teardown -/

/-- The interleaving the claim is about: `stopSession` while the connect
promise is outstanding, then the promise resolves, `onopen` fires, and a
video timer tick sends a frame. -/
def staleTrace : List AsyncEvent :=
  [AsyncEvent.stopCall, AsyncEvent.connectResolves 7, AsyncEvent.openFires 3,
   AsyncEvent.videoTick ⟨"frame", "image/jpeg"⟩]

def connectingAsync : AsyncState := ⟨connectingRefs, none, [], []⟩

/-- C6 evaluation: after `stop()` during an outstanding connect, the
resolving `await` re-populates the cleared session handle (line 193), the
late `onopen` re-activates the session and re-registers the frame timer,
and a media chunk is then sent on the channel — the completion callbacks
are not guarded by the cleared session handle as the claim states. -/
theorem c6_code_behavior :
    (runAsync connectingAsync staleTrace).refs.session = some 7 ∧
    (runAsync connectingAsync staleTrace).sentOnChannel = [⟨"frame", "image/jpeg"⟩] ∧
    (runAsync connectingAsync staleTrace).refs.isActive = true := by
  decide

/-! ### Claim C7: `startSession` re-entry -/

/-- C7 counterexample: invoked from a fully `Active` state, `startSession`
is not a no-op — it requests the devices again and opens a second channel
(effects go from (1 connect, 1 device request) to (2, 2)). -/
theorem c7_counterexample :
    activeRefs.isActive = true ∧
    (startSessionRun activeRefs ⟨1, 1⟩ true).2 = ⟨2, 2⟩ ∧
    ((⟨2, 2⟩ : StartEffects) ≠ ⟨1, 1⟩) := by
  decide

/-- C7 (amended): the `startSession` function itself carries no lifecycle
guard — invoked in any state it requests the devices and (on grant)
opens a fresh channel, with effects independent of the `isActive` /
`isConnecting` flags; the no-op protection lives in the presentation
layer, whose start control is rendered exactly when the session is
neither active nor connecting. -/
theorem c7_amended (s : SessionRefs) (eff : StartEffects) (g : Bool) :
    ((startSessionRun s eff g).2.deviceRequests = eff.deviceRequests + 1) ∧
    (g = true → (startSessionRun s eff g).2.channelsConnected
      = eff.channelsConnected + 1) ∧
    (∀ a c : Bool,
      (startSessionRun { s with isActive := a, isConnecting := c } eff g).2
        = (startSessionRun s eff g).2) ∧
    (∀ a c : Bool, startButtonVisible a c = true ↔ a = false ∧ c = false) := by
  refine ⟨?_, ?_, ?_, ?_⟩
  · cases g <;> rfl
  · intro hg
    subst hg
    rfl
  · intro a c
    cases g <;> rfl
  · intro a c
    cases a <;> cases c <;> simp [startButtonVisible]

/-- C7 witness: the amended theorem at the live-session refs. -/
theorem c7_amended_witness :
    ((startSessionRun activeRefs ⟨1, 1⟩ true).2.deviceRequests = 1 + 1) ∧
    (true = true → (startSessionRun activeRefs ⟨1, 1⟩ true).2.channelsConnected
      = 1 + 1) ∧
    (∀ a c : Bool,
      (startSessionRun { activeRefs with isActive := a, isConnecting := c } ⟨1, 1⟩ true).2
        = (startSessionRun activeRefs ⟨1, 1⟩ true).2) ∧
    (∀ a c : Bool, startButtonVisible a c = true ↔ a = false ∧ c = false) :=
  c7_amended activeRefs ⟨1, 1⟩ true

/-! ### Claim C8: totality of the dispatch over missing fields -/

theorem onmessage_of_extract_none (m : LiveServerMessage) (ctx : MsgCtx) (st : RouterState)
    (h : extractAudioData m = Except.ok none) :
    onmessage m ctx st
      = Except.ok (interruptionStep m (turnCompleteStep m ctx (transcriptionStep m st))) := by
  rw [onmessage_eq, playbackStep_eq, h, okBind]
  rfl

/-- C8 counterexample: an event whose `modelTurn` is present but whose
`parts` field is absent makes the handler raise a TypeError
(`modelTurn?.parts[0]` has no optional chain before the index) — the
dispatch is not total over events with a missing `parts` field, contrary
to the claim. -/
theorem c8_counterexample :
    onmessage (mkShape true false false false true 0 false) ⟨0, 0⟩ initialRouterState
      = Except.error RouterError.partsUndefined := by
  decide

/-- C8 (amended): over all event shapes in which each optional field —
`serverContent`, the transcriptions, `turnComplete`, `modelTurn`, `parts`
being empty, `inlineData`, `data`, `interrupted` — is independently
present or absent, the dispatch succeeds without error, with the single
exception the counterexample exhibits: a present `modelTurn` requires its
`parts` field to be present. -/
theorem c8_amended (hasSC hasOT hasIT hasTC hasMT : Bool) (ps : ℕ) (hasIntr : Bool)
    (ctx : MsgCtx) (st : RouterState) (hguard : hasMT = true → ps ≠ 0) :
    ∃ st', onmessage (mkShape hasSC hasOT hasIT hasTC hasMT ps hasIntr) ctx st
      = Except.ok st' := by
  refine ⟨_, onmessage_of_extract_none _ ctx st ?_⟩
  cases hasSC with
  | false => rfl
  | true =>
    cases hasMT with
    | false => rfl
    | true =>
      have hps := hguard rfl
      rcases ps with _ | _ | _ | k
      · exact absurd rfl hps
      · rfl
      · rfl
      · rfl

/-- C8 witness: the amended theorem at a shape with every field present
(parts shaped as the empty list). -/
theorem c8_amended_witness :
    ∃ st', onmessage (mkShape true true true true true 1 true) ⟨0, 0⟩ initialRouterState
      = Except.ok st' :=
  c8_amended true true true true true 1 true ⟨0, 0⟩ initialRouterState (fun _ => by decide)

/-! ### Claim C9: the capture conversion pipeline -/

/-- C9 counterexample: the blob submitted by `onaudioprocess` is tagged
`audio/pcm;rate=16000`, not `audio/pcm16;rate=16000` as the claim
states. -/
theorem c9_counterexample :
    (onaudioprocess []).mimeType = "audio/pcm;rate=16000" ∧
    "audio/pcm;rate=16000" ≠ "audio/pcm16;rate=16000" :=
  ⟨rfl, by decide⟩

theorem sampleToUint16_one : sampleToUint16 1 = 32768 := by
  have h1 : (1 : ℚ) * 32768 = 32768 := by norm_num
  rw [sampleToUint16, h1, ratTrunc]
  simp only [Rat.num_ofNat, Rat.den_ofNat]
  decide

theorem sampleToUint16_two : sampleToUint16 2 = 0 := by
  have h1 : (2 : ℚ) * 32768 = 65536 := by norm_num
  rw [sampleToUint16, h1, ratTrunc]
  simp only [Rat.num_ofNat, Rat.den_ofNat]
  decide

theorem sampleToUint16_negHalf : sampleToUint16 (-(1 / 65536)) = 0 := by
  have h1 : (-(1 / 65536) : ℚ) * 32768 = -(1 / 2) := by norm_num
  have h2 : ((-(1 / 2) : ℚ)).num = -1 := by norm_num
  have h3 : ((-(1 / 2) : ℚ)).den = 2 := by norm_num
  rw [sampleToUint16, h1, ratTrunc, h2, h3]
  decide

/-- C9 (amended): each captured float sample is scaled by 32768, truncated
toward zero and wrapped modulo 2^16 with no clamping (sample 1 wraps to
-32768 and sample 2 wraps to 0, where clamping would give 32767; sample
-1/65536 truncates to 0, where flooring would wrap to -1); the 16-bit
patterns are packed little-endian into bytes, base64-encoded (decoding
recovers the packed bytes exactly), and the blob is tagged
`audio/pcm;rate=16000` — not `audio/pcm16;rate=16000`. -/
theorem c9_amended (inputData : List ℚ) :
    (onaudioprocess inputData).mimeType = "audio/pcm;rate=16000" ∧
    (onaudioprocess inputData).data = encode (int16Bytes (inputData.map sampleToUint16)) ∧
    decode (onaudioprocess inputData).data
      = some (int16Bytes (inputData.map sampleToUint16)) ∧
    (∀ s : ℚ, sampleToInt16 s % 65536 = ratTrunc (s * 32768) % 65536 ∧
      (sampleToInt16 s % 65536).toNat = sampleToUint16 s ∧
      -32768 ≤ sampleToInt16 s ∧ sampleToInt16 s < 32768) ∧
    sampleToInt16 1 = -32768 ∧ sampleToInt16 2 = 0 ∧
    sampleToInt16 (-(1 / 65536)) = 0 := by
  refine ⟨rfl, rfl, ?_, ?_, ?_, ?_, ?_⟩
  · exact atob_btoa _ (int16Bytes_lt _ (fun u hu => by
      rcases List.mem_map.1 hu with ⟨q, hq, rfl⟩
      exact sampleToUint16_lt q))
  · intro s
    have h0 : 0 ≤ ratTrunc (s * 32768) % 65536 := Int.emod_nonneg _ (by norm_num)
    have h1 : ratTrunc (s * 32768) % 65536 < 65536 := Int.emod_lt_of_pos _ (by norm_num)
    have hui : (sampleToUint16 s : ℤ) = ratTrunc (s * 32768) % 65536 := by
      rw [sampleToUint16]
      omega
    rw [sampleToInt16]
    by_cases hlt : sampleToUint16 s < 32768
    · rw [if_pos hlt]
      refine ⟨?_, ?_, ?_, ?_⟩ <;> omega
    · rw [if_neg hlt]
      refine ⟨?_, ?_, ?_, ?_⟩ <;> omega
  · norm_num [sampleToInt16, sampleToUint16_one]
  · norm_num [sampleToInt16, sampleToUint16_two]
  · norm_num [sampleToInt16, sampleToUint16_negHalf]

end InterviewPractice
